import Mathlib

/-!
Verification of the HTTP control API of the rclone backup scheduler
(`rclone_backup/scheduler/api.go`).

The embedding models Go strings as `List Char` (`GoStr`), HTTP requests as
method/path pairs, and the three handlers registered on the `http.ServeMux`
in `StartAPIServer`:
  * `"/api/jobs"`   — the job-listing handler (GET only);
  * `"/api/jobs/"`  — the manual-trigger handler (POST only);
  * `"/"`           — the static UI page (`/` and `/jobs`), 404 otherwise.
Go's `ServeMux` first canonicalizes the request path (`cleanPath`,
i.e. `path.Clean` plus trailing-slash restoration) and answers
`301 Moved Permanently` without invoking any handler when the path changes
(CONNECT requests are exempt); on a canonical path it dispatches an exact
pattern (`"/api/jobs"`) before the longest matching subtree pattern
(`"/api/jobs/"`), with `"/"` as the catch-all. `serveMux` below mirrors the
canonicalization step and `muxDispatch` the dispatch order.
-/

/-- Go strings, modelled as their character lists. -/
abbrev GoStr := List Char

/-- Character data of a Lean string literal (used to write Go string literals). -/
def gs (s : String) : GoStr := s.data

/-- A job from the loaded configuration (`config.Jobs`); the handler reads the
fields `Name`, `Schedule`, `Command`, `Run`. Absent optional fields are the
empty string, as in Go. -/
structure Job where
  name : String
  schedule : String
  command : String
  run : String
deriving DecidableEq, Repr

/-- `JobSummary` from api.go: the API view of a job for listing. `command` and
`run` are tagged `omitempty` in Go, so a field equal to `""` is absent from
the serialized JSON object. -/
structure JobSummary where
  index : Nat
  name : String
  schedule : String
  command : String
  run : String
  type : String
deriving DecidableEq, Repr

/-- The outcome of the executor's trigger for one job index.
Modelled from the spec: the Executor itself is outside `src/`; §4.2 says
`trigger(index)` yields `Accepted` when the job was idle and `Busy` when a
run for this index is already in flight. -/
inductive TriggerResult where
  | Accepted
  | Busy
deriving DecidableEq, Repr

/-- An HTTP request as the handlers see it: `r.Method` and `r.URL.Path`. -/
structure Request where
  method : GoStr
  path : GoStr
deriving DecidableEq, Repr

/-- The body written by a handler: nothing, literal bytes, the JSON encoding
of a list of summaries (`json.NewEncoder(w).Encode(list)`), or the short
HTML body `http.Redirect` writes for a GET (`<a href="loc">Moved
Permanently</a>.` plus newlines); the redirect body's bytes are abstracted
by their location since the URL/HTML escaping applied to `loc` is not
modelled. -/
inductive Body where
  | empty
  | raw (s : GoStr)
  | jsonList (l : List JobSummary)
  | redirect (location : GoStr)
deriving DecidableEq, Repr

/-- An HTTP response: status code, the `Content-Type` header if one was set,
and the body. -/
structure Response where
  status : Nat
  contentType : Option GoStr
  body : Body
deriving DecidableEq, Repr

/-- `strings.TrimPrefix(s, p)`: drop `p` from the front of `s` when it is a
prefix, otherwise return `s` unchanged. -/
def trimPfx (p s : GoStr) : GoStr :=
  if p <+: s then s.drop p.length else s

/-- `strings.TrimSuffix(s, p)`: drop one copy of `p` from the end of `s` when
it is a suffix, otherwise return `s` unchanged. -/
def trimSfx (p s : GoStr) : GoStr :=
  if p <:+ s then s.take (s.length - p.length) else s

/-- Accumulate the decimal value of a digit run; any non-digit character is a
syntax error (`strconv.ErrSyntax`). -/
def decVal (acc : Nat) : GoStr → Option Nat
  | [] => some acc
  | c :: cs =>
    if '0' ≤ c ∧ c ≤ '9' then decVal (acc * 10 + (c.toNat - '0'.toNat)) cs
    else none

/-- `strconv.Atoi`: an optional single `+`/`-` sign followed by at least one
decimal digit; no other characters allowed. Values outside the 64-bit `int`
range yield `strconv.ErrRange`, i.e. `none` here. -/
def goAtoi (s : GoStr) : Option Int :=
  let signAndDigits : Bool × GoStr :=
    match s with
    | '-' :: rest => (true, rest)
    | '+' :: rest => (false, rest)
    | _ => (false, s)
  match signAndDigits.2 with
  | [] => none
  | ds =>
    match decVal 0 ds with
    | none => none
    | some v =>
      let i : Int := if signAndDigits.1 then -(v : Int) else (v : Int)
      if i < -(2 ^ 63) ∨ (2 ^ 63 : Int) ≤ i then none else some i

/-- Split on `/`, keeping empty segments (the path elements `path.Clean`
walks over). -/
def splitSegs : GoStr → List GoStr
  | [] => [[]]
  | c :: rest =>
    if c = '/' then [] :: splitSegs rest
    else
      match splitSegs rest with
      | [] => [[c]]
      | s :: ss => (c :: s) :: ss

/-- Join segments with `/`. -/
def joinSegs : List GoStr → GoStr
  | [] => []
  | [s] => s
  | s :: ss => s ++ '/' :: joinSegs ss

/-- The element loop of `path.Clean`: drop empty and `.` elements; a `..`
element pops the last real element, is dropped at the root of a rooted path,
and is kept (accumulated) in a non-rooted path. `stack` holds the output
elements most recent first. -/
def cleanSegs (rooted : Bool) (stack : List GoStr) : List GoStr → List GoStr
  | [] => stack.reverse
  | seg :: rest =>
    if seg = [] ∨ seg = gs "." then cleanSegs rooted stack rest
    else if seg = gs ".." then
      match stack with
      | [] => if rooted then cleanSegs rooted [] rest else cleanSegs rooted [gs ".."] rest
      | top :: stk =>
        if top = gs ".." then cleanSegs rooted (gs ".." :: stack) rest
        else cleanSegs rooted stk rest
    else cleanSegs rooted (seg :: stack) rest

/-- `path.Clean` turns an empty result into `.`. -/
def emptyToDot (out : GoStr) : GoStr :=
  if out = [] then gs "." else out

/-- `path.Clean`: lexically canonicalize a slash-separated path (drop empty
and `.` elements, resolve `..`, empty result becomes `.`, a rooted path
keeps its leading `/`). -/
def pathClean (p : GoStr) : GoStr :=
  if p = [] then gs "."
  else if p.head? = some '/' then
    emptyToDot ('/' :: joinSegs (cleanSegs true [] (splitSegs p)))
  else
    emptyToDot (joinSegs (cleanSegs false [] (splitSegs p)))

/-- The tail of `net/http`'s `cleanPath`: `path.Clean` drops a trailing
slash, which `cleanPath` restores (`p2` the slash-prefixed input, `np` its
`Clean`). -/
def restoreTrailingSlash (p2 np : GoStr) : GoStr :=
  if p2.getLast? = some '/' ∧ np ≠ gs "/" then np ++ gs "/" else np

/-- `net/http`'s `cleanPath`: route an empty path to `/`, force a leading
`/`, `path.Clean`, and restore a trailing slash removed by `Clean`. -/
def cleanPath (p : GoStr) : GoStr :=
  if p = [] then gs "/"
  else if p.head? = some '/' then restoreTrailingSlash p (pathClean p)
  else restoreTrailingSlash ('/' :: p) (pathClean ('/' :: p))

/-- The schedule string shown in a summary: the placeholder when the job has
no schedule, the schedule verbatim otherwise. -/
def displaySchedule (s : String) : String :=
  if s = "" then "(on demand / startup)" else s

/-- Build a JobSummary from a 0-based loop index and a job: the body of the
`for i, job := range config.Jobs` loop in the listing handler. -/
def summarize (i : Nat) (job : Job) : JobSummary :=
  if job.run ≠ "" then
    { index := i, name := job.name, schedule := displaySchedule job.schedule,
      command := "", run := job.run, type := "run" }
  else
    { index := i, name := job.name, schedule := displaySchedule job.schedule,
      command := job.command, run := "", type := "rclone" }

/-- The listing loop starting at index `i`. -/
def summarizeFrom (i : Nat) : List Job → List JobSummary
  | [] => []
  | job :: rest => summarize i job :: summarizeFrom (i + 1) rest

/-- The full summary list built by the listing handler, indices from 0. -/
def listSummaries (jobs : List Job) : List JobSummary :=
  summarizeFrom 0 jobs

/-- Response of `w.WriteHeader(http.StatusMethodNotAllowed)`: bare 405. -/
def methodNotAllowedResponse : Response :=
  { status := 405, contentType := none, body := .empty }

/-- Response of `http.Error(w, "invalid job index", http.StatusBadRequest)`:
400, text/plain, message plus newline. -/
def badRequestResponse : Response :=
  { status := 400, contentType := some (gs "text/plain; charset=utf-8"),
    body := .raw (gs "invalid job index\n") }

/-- The 202 response of an accepted trigger, body `\x7b"status":"accepted"\x7d`. -/
def acceptedResponse : Response :=
  { status := 202, contentType := some (gs "application/json"),
    body := .raw (gs "\x7b\"status\":\"accepted\"\x7d") }

/-- Response of `http.NotFound(w, r)`: 404, text/plain, standard message. -/
def notFoundResponse : Response :=
  { status := 404, contentType := some (gs "text/plain; charset=utf-8"),
    body := .raw (gs "404 page not found\n") }

/-- Response of the mux's `RedirectHandler(url, StatusMovedPermanently)`
(`http.Redirect`): 301 with a `Location` header; only for a GET it also
writes `Content-Type: text/html; charset=utf-8` and the short HTML anchor
body (abstracted as `.redirect loc`). -/
def redirectResponse (method loc : GoStr) : Response :=
  { status := 301,
    contentType := if method = gs "GET" then some (gs "text/html; charset=utf-8") else none,
    body := if method = gs "GET" then .redirect loc else .empty }

/-- The `"/api/jobs"` handler: GET lists all jobs as JSON; other methods 405. -/
def jobsListHandler (jobs : List Job) (r : Request) : Response :=
  if r.method ≠ gs "GET" then methodNotAllowedResponse
  else
    { status := 200, contentType := some (gs "application/json"),
      body := .jsonList (listSummaries jobs) }

/-- The tail of the trigger handler, after `strconv.Atoi`: an error or an
index outside `[0, n)` yields 400; otherwise `go runnables[index]()` is
spawned and the handler answers 202. Besides the response, the model returns
which job index was triggered and the executor outcome for it (`none` when
nothing was started); `busy` is the per-index RunState at the instant of the
trigger (the outcome is modelled from the spec, §4.2, as the Executor is
outside `src/`). -/
def triggerDecision (n : Nat) (busy : Nat → Bool) (parsed : Option Int) :
    Response × Option (Nat × TriggerResult) :=
  match parsed with
  | none => (badRequestResponse, none)
  | some index =>
    if index < 0 ∨ (n : Int) ≤ index then (badRequestResponse, none)
    else
      (acceptedResponse,
       some (index.toNat,
             if busy index.toNat then TriggerResult.Busy else TriggerResult.Accepted))

/-- The `"/api/jobs/"` handler: POST parses `/api/jobs/N` or `/api/jobs/N/run`
(TrimPrefix then TrimSuffix then Atoi) and decides per `triggerDecision`;
any other method gets a bare 405. -/
def jobsTriggerHandler (n : Nat) (busy : Nat → Bool) (r : Request) :
    Response × Option (Nat × TriggerResult) :=
  if r.method ≠ gs "POST" then (methodNotAllowedResponse, none)
  else
    triggerDecision n busy
      (goAtoi (trimSfx (gs "/run") (trimPfx (gs "/api/jobs/") r.path)))

/-- The static dashboard page `jobsPageHTML` from api.go, verbatim. -/
def jobsPageHTMLStr : String :=
  "<!DOCTYPE html>
<html>
<head>
  <meta charset=\"utf-8\">
  <meta name=\"viewport\" content=\"width=device-width, initial-scale=1\">
  <title>Rclone Backup – Jobs</title>
  <style>
    body \x7b font-family: system-ui, sans-serif; margin: 1rem; max-width: 800px; \x7d
    h1 \x7b font-size: 1.25rem; \x7d
    .job \x7b display: flex; align-items: center; gap: 0.75rem; margin: 0.5rem 0; padding: 0.5rem; background: #f5f5f5; border-radius: 6px; \x7d
    .job-name \x7b font-weight: 600; min-width: 140px; \x7d
    .job-schedule \x7b color: #666; font-size: 0.9rem; \x7d
    .job-type \x7b font-size: 0.85rem; color: #444; \x7d
    button \x7b padding: 0.35rem 0.75rem; cursor: pointer; background: #03a9f4; color: #fff; border: none; border-radius: 4px; \x7d
    button:hover \x7b background: #0288d1; \x7d
    button:disabled \x7b background: #ccc; cursor: not-allowed; \x7d
    .error \x7b color: #c62828; margin-top: 0.5rem; \x7d
  </style>
</head>
<body>
  <h1>Jobs</h1>
  <p>Run a job now (logs appear in the addon log).</p>
  <div id=\"jobs\"></div>
  <p class=\"error\" id=\"err\" style=\"display:none;\"></p>
  <script>
    const el = document.getElementById('jobs');
    const errEl = document.getElementById('err');
    function showErr(msg) \x7b errEl.textContent = msg; errEl.style.display = 'block'; \x7d
    fetch('/api/jobs')
      .then(r => r.ok ? r.json() : Promise.reject(new Error('Failed to load jobs')))
      .then(jobs => \x7b
        jobs.forEach(j => \x7b
          const div = document.createElement('div');
          div.className = 'job';
          const name = document.createElement('span');
          name.className = 'job-name';
          name.textContent = j.name || ('Job ' + j.index);
          const sched = document.createElement('span');
          sched.className = 'job-schedule';
          sched.textContent = j.schedule;
          const typ = document.createElement('span');
          typ.className = 'job-type';
          typ.textContent = j.type === 'run' ? ('run: ' + (j.run && j.run.length > 40 ? j.run.slice(0, 40) + '…' : j.run)) : ('rclone ' + j.command);
          const btn = document.createElement('button');
          btn.textContent = 'Run now';
          btn.onclick = () => \x7b
            btn.disabled = true;
            fetch('/api/jobs/' + j.index + '/run', \x7b method: 'POST' \x7d)
              .then(r => r.ok ? null : Promise.reject(new Error('Request failed')))
              .then(() => \x7b setTimeout(() => btn.disabled = false, 2000); \x7d)
              .catch(e => \x7b showErr(e.message); btn.disabled = false; \x7d);
          \x7d;
          div.appendChild(name);
          div.appendChild(sched);
          div.appendChild(typ);
          div.appendChild(btn);
          el.appendChild(div);
        \x7d);
      \x7d)
      .catch(e => showErr(e.message));
  </script>
</body>
</html>
"

/-- The page as Go bytes. -/
def jobsPageHTML : GoStr := jobsPageHTMLStr.data

/-- The `"/"` handler: serve the static jobs page on `/` and `/jobs`,
404 on everything else; the method is never inspected. -/
def uiHandler (r : Request) : Response :=
  if r.path ≠ gs "/" ∧ r.path ≠ gs "/jobs" then notFoundResponse
  else
    { status := 200, contentType := some (gs "text/html; charset=utf-8"),
      body := .raw jobsPageHTML }

/-- The handler dispatch of the mux of `StartAPIServer`: exact pattern
`"/api/jobs"` first, then the subtree pattern `"/api/jobs/"`, then the
catch-all `"/"`. `n` is the length of the `runnables` slice (one runnable
per registered job). -/
def muxDispatch (jobs : List Job) (n : Nat) (busy : Nat → Bool)
    (r : Request) : Response × Option (Nat × TriggerResult) :=
  if r.path = gs "/api/jobs" then (jobsListHandler jobs r, none)
  else if gs "/api/jobs/" <+: r.path then jobsTriggerHandler n busy r
  else (uiHandler r, none)

/-- `ServeMux.ServeHTTP` on the mux of `StartAPIServer`: for a non-CONNECT
request whose path is changed by `cleanPath`, the mux answers 301 to the
cleaned path without invoking any handler; CONNECT requests are exempt from
canonicalization and dispatch on the raw path. The mux's other redirect
(`redirectToPathSlash`, for a path whose `path+"/"` is a registered subtree
while `path` itself is not) never fires for this pattern set, since
`"/api/jobs"` is registered exactly and `"/"` only completes the empty
path, which `shouldRedirectRLocked` excludes; it is therefore omitted. -/
def serveMux (jobs : List Job) (n : Nat) (busy : Nat → Bool)
    (r : Request) : Response × Option (Nat × TriggerResult) :=
  if r.method ≠ gs "CONNECT" ∧ cleanPath r.path ≠ r.path then
    (redirectResponse r.method (cleanPath r.path), none)
  else muxDispatch jobs n busy r

/-! ### Helper lemmas -/

lemma trimPfx_append (p s : GoStr) : trimPfx p (p ++ s) = s := by
  unfold trimPfx
  rw [if_pos (List.prefix_append p s), List.drop_left]

lemma trimSfx_append (p s : GoStr) : trimSfx p (s ++ p) = s := by
  unfold trimSfx
  rw [if_pos (List.suffix_append s p), List.length_append, Nat.add_sub_cancel,
    List.take_left]

lemma trimSfx_of_not_mem (p s : GoStr) (c : Char) (hc : c ∈ p) (hs : c ∉ s) :
    trimSfx p s = s := by
  unfold trimSfx
  rw [if_neg]
  intro h
  exact hs (h.subset hc)

/-- A canonical path reaches the handler dispatch, whatever the method. -/
lemma serveMux_of_canonical (jobs : List Job) (n : Nat) (busy : Nat → Bool)
    (r : Request) (hc : cleanPath r.path = r.path) :
    serveMux jobs n busy r = muxDispatch jobs n busy r := by
  unfold serveMux
  rw [if_neg]
  intro h
  exact h.2 hc

/-- A path that extends `/api/jobs/` is dispatched to the trigger handler. -/
lemma muxDispatch_trigger_route (jobs : List Job) (n : Nat) (busy : Nat → Bool)
    (m p : GoStr) (hpfx : gs "/api/jobs/" <+: p) :
    muxDispatch jobs n busy ⟨m, p⟩ = jobsTriggerHandler n busy ⟨m, p⟩ := by
  unfold muxDispatch
  rw [if_neg, if_pos hpfx]
  intro hEq
  have hEq2 : p = gs "/api/jobs" := hEq
  have hle := hpfx.length_le
  rw [hEq2] at hle
  exact absurd hle (by decide)

/-- Routing plus handler evaluation for a POST on a canonical trigger path. -/
lemma serveMux_trigger_decision (jobs : List Job) (n : Nat) (busy : Nat → Bool)
    (p t : GoStr) (hcanon : cleanPath p = p) (hpfx : gs "/api/jobs/" <+: p)
    (ht : trimSfx (gs "/run") (trimPfx (gs "/api/jobs/") p) = t) :
    serveMux jobs n busy ⟨gs "POST", p⟩ = triggerDecision n busy (goAtoi t) := by
  rw [serveMux_of_canonical jobs n busy _ hcanon,
    muxDispatch_trigger_route jobs n busy _ p hpfx]
  unfold jobsTriggerHandler
  rw [if_neg (not_not_intro rfl), ht]

/-- The request path `/api/jobs/{s}` (`withRun = false`) or
`/api/jobs/{s}/run` (`withRun = true`). -/
def pathFor (s : GoStr) (withRun : Bool) : GoStr :=
  gs "/api/jobs/" ++ (s ++ (if withRun then gs "/run" else []))

lemma pathFor_trim (s : GoStr) (withRun : Bool) (hs : '/' ∉ s) :
    trimSfx (gs "/run") (trimPfx (gs "/api/jobs/") (pathFor s withRun)) = s := by
  unfold pathFor
  rw [trimPfx_append]
  cases withRun
  · rw [show (if false then gs "/run" else []) = [] from rfl, List.append_nil]
    exact trimSfx_of_not_mem _ _ '/' (by decide) hs
  · rw [show (if true then gs "/run" else []) = gs "/run" from rfl]
    exact trimSfx_append _ _

lemma splitSegs_no_slash (s : GoStr) (hs : '/' ∉ s) : splitSegs s = [s] := by
  induction s with
  | nil => rfl
  | cons c rest ih =>
    have hc : c ≠ '/' := fun h => hs (h ▸ List.mem_cons_self c rest)
    have hr : '/' ∉ rest := fun h => hs (List.mem_cons_of_mem c h)
    simp [splitSegs, hc, ih hr]

lemma splitSegs_append_slash (w rest : GoStr) (hw : '/' ∉ w) :
    splitSegs (w ++ '/' :: rest) = w :: splitSegs rest := by
  induction w with
  | nil => simp [splitSegs]
  | cons c w ih =>
    have hc : c ≠ '/' := fun h => hw (h ▸ List.mem_cons_self c w)
    have hw' : '/' ∉ w := fun h => hw (List.mem_cons_of_mem c h)
    simp [splitSegs, hc, ih hw']

lemma getLast?_ne_of_not_mem (s : GoStr) (c : Char) (hns : c ∉ s) :
    s.getLast? ≠ some c := by
  intro h
  obtain ⟨hne, hEq⟩ := List.mem_getLast?_eq_getLast (Option.mem_def.mpr h)
  exact hns (hEq.symm ▸ List.getLast_mem hne)

/-- Stepping `cleanSegs` over an abstract real element (non-empty, not `.`,
not `..`): it is pushed onto the stack. -/
lemma cleanSegs_push (s : GoStr) (h0 : s ≠ []) (h1 : s ≠ gs ".")
    (h2 : s ≠ gs "..") (st L : List GoStr) :
    cleanSegs true st (s :: L) = cleanSegs true (s :: st) L := by
  have hA : ¬(s = [] ∨ s = gs ".") := by
    rintro (h | h)
    · exact h0 h
    · exact h1 h
  simp only [cleanSegs]
  rw [if_neg hA, if_neg h2]

/-- A trigger path whose index segment is a real path element (in particular
any segment `strconv.Atoi` accepts) is untouched by `cleanPath`. -/
lemma pathFor_canonical (s : GoStr) (hs : '/' ∉ s) (h0 : s ≠ [])
    (h1 : s ≠ gs ".") (h2 : s ≠ gs "..") (withRun : Bool) :
    cleanPath (pathFor s withRun) = pathFor s withRun := by
  cases withRun
  · have hp : pathFor s false = gs "/api/jobs/" ++ s := by
      unfold pathFor
      have e : (if false then gs "/run" else []) = ([] : GoStr) := rfl
      rw [e, List.append_nil]
    rw [hp]
    have hpne : gs "/api/jobs/" ++ s ≠ [] :=
      List.cons_ne_nil '/' (gs "api/jobs/" ++ s)
    have hhead : (gs "/api/jobs/" ++ s).head? = some '/' := rfl
    have e0 : gs "/api/jobs/" ++ s =
        '/' :: (gs "api" ++ '/' :: (gs "jobs" ++ '/' :: s)) := rfl
    have e1 : splitSegs ('/' :: (gs "api" ++ '/' :: (gs "jobs" ++ '/' :: s))) =
        [] :: splitSegs (gs "api" ++ '/' :: (gs "jobs" ++ '/' :: s)) := rfl
    have hsplit : splitSegs (gs "/api/jobs/" ++ s) =
        [[], gs "api", gs "jobs", s] := by
      rw [e0, e1, splitSegs_append_slash (gs "api") _ (by decide),
        splitSegs_append_slash (gs "jobs") _ (by decide),
        splitSegs_no_slash s hs]
    have hlast : (gs "/api/jobs/" ++ s).getLast? ≠ some '/' := by
      rw [List.getLast?_append_of_ne_nil _ h0]
      exact getLast?_ne_of_not_mem s '/' hs
    unfold cleanPath
    rw [if_neg hpne, if_pos hhead]
    unfold restoreTrailingSlash
    rw [if_neg (fun h => hlast h.1)]
    unfold pathClean
    rw [if_neg hpne, if_pos hhead, hsplit]
    have e2 : cleanSegs true [] [[], gs "api", gs "jobs", s] =
        cleanSegs true [gs "jobs", gs "api"] [s] := rfl
    rw [e2, cleanSegs_push s h0 h1 h2]
    have e3 : cleanSegs true (s :: [gs "jobs", gs "api"]) [] =
        [gs "api", gs "jobs", s] := rfl
    rw [e3]
    have e4 : joinSegs [gs "api", gs "jobs", s] =
        gs "api" ++ '/' :: (gs "jobs" ++ '/' :: s) := rfl
    rw [e4]
    have e5 : '/' :: (gs "api" ++ '/' :: (gs "jobs" ++ '/' :: s)) =
        gs "/api/jobs/" ++ s := rfl
    rw [e5]
    unfold emptyToDot
    rw [if_neg hpne]
  · have hp : pathFor s true = gs "/api/jobs/" ++ (s ++ gs "/run") := by
      unfold pathFor
      have e : (if true then gs "/run" else []) = gs "/run" := rfl
      rw [e]
    rw [hp]
    have hpne : gs "/api/jobs/" ++ (s ++ gs "/run") ≠ [] :=
      List.cons_ne_nil '/' (gs "api/jobs/" ++ (s ++ gs "/run"))
    have hhead : (gs "/api/jobs/" ++ (s ++ gs "/run")).head? = some '/' := rfl
    have hru : s ++ gs "/run" ≠ [] := by
      intro h
      exact absurd (List.append_eq_nil.mp h).2 (by decide)
    have e0 : gs "/api/jobs/" ++ (s ++ gs "/run") =
        '/' :: (gs "api" ++ '/' :: (gs "jobs" ++ '/' :: (s ++ '/' :: gs "run"))) := rfl
    have e1 : splitSegs ('/' :: (gs "api" ++ '/' ::
          (gs "jobs" ++ '/' :: (s ++ '/' :: gs "run")))) =
        [] :: splitSegs (gs "api" ++ '/' ::
          (gs "jobs" ++ '/' :: (s ++ '/' :: gs "run"))) := rfl
    have hsplit : splitSegs (gs "/api/jobs/" ++ (s ++ gs "/run")) =
        [[], gs "api", gs "jobs", s, gs "run"] := by
      rw [e0, e1, splitSegs_append_slash (gs "api") _ (by decide),
        splitSegs_append_slash (gs "jobs") _ (by decide),
        splitSegs_append_slash s _ hs,
        splitSegs_no_slash (gs "run") (by decide)]
    have hlast : (gs "/api/jobs/" ++ (s ++ gs "/run")).getLast? ≠ some '/' := by
      rw [List.getLast?_append_of_ne_nil _ hru,
        List.getLast?_append_of_ne_nil _ (by decide : gs "/run" ≠ [])]
      decide
    unfold cleanPath
    rw [if_neg hpne, if_pos hhead]
    unfold restoreTrailingSlash
    rw [if_neg (fun h => hlast h.1)]
    unfold pathClean
    rw [if_neg hpne, if_pos hhead, hsplit]
    have e2 : cleanSegs true [] [[], gs "api", gs "jobs", s, gs "run"] =
        cleanSegs true [gs "jobs", gs "api"] [s, gs "run"] := rfl
    rw [e2, cleanSegs_push s h0 h1 h2]
    have e3 : cleanSegs true (s :: [gs "jobs", gs "api"]) [gs "run"] =
        [gs "api", gs "jobs", s, gs "run"] := rfl
    rw [e3]
    have e4 : joinSegs [gs "api", gs "jobs", s, gs "run"] =
        gs "api" ++ '/' :: (gs "jobs" ++ '/' :: (s ++ '/' :: gs "run")) := rfl
    rw [e4]
    have e5 : '/' :: (gs "api" ++ '/' :: (gs "jobs" ++ '/' :: (s ++ '/' :: gs "run"))) =
        gs "/api/jobs/" ++ (s ++ gs "/run") := rfl
    rw [e5]
    unfold emptyToDot
    rw [if_neg hpne]

lemma triggerDecision_fst (n : Nat) (b₁ b₂ : Nat → Bool) (o : Option Int) :
    (triggerDecision n b₁ o).1 = (triggerDecision n b₂ o).1 := by
  cases o with
  | none => rfl
  | some i =>
    by_cases h : i < 0 ∨ (n : Int) ≤ i
    · simp only [triggerDecision, if_pos h]
    · simp only [triggerDecision, if_neg h]

lemma jobsTriggerHandler_fst (n : Nat) (b₁ b₂ : Nat → Bool) (r : Request) :
    (jobsTriggerHandler n b₁ r).1 = (jobsTriggerHandler n b₂ r).1 := by
  unfold jobsTriggerHandler
  by_cases hm : r.method ≠ gs "POST"
  · rw [if_pos hm, if_pos hm]
  · rw [if_neg hm, if_neg hm]
    exact triggerDecision_fst n b₁ b₂ _

lemma summarize_index (i : Nat) (j : Job) : (summarize i j).index = i := by
  unfold summarize
  split <;> rfl

lemma summarize_schedule (i : Nat) (j : Job) :
    (summarize i j).schedule = displaySchedule j.schedule := by
  unfold summarize
  split <;> rfl

lemma summarizeFrom_length (k : Nat) (jobs : List Job) :
    (summarizeFrom k jobs).length = jobs.length := by
  induction jobs generalizing k with
  | nil => rfl
  | cons j rest ih => simp [summarizeFrom, ih]

lemma summarizeFrom_map_index (k : Nat) (jobs : List Job) :
    (summarizeFrom k jobs).map JobSummary.index = List.range' k jobs.length := by
  induction jobs generalizing k with
  | nil => rfl
  | cons j rest ih =>
    simp [summarizeFrom, List.range'_succ, summarize_index, ih]

lemma summarizeFrom_get (k : Nat) (jobs : List Job) (i : Nat)
    (h1 : i < (summarizeFrom k jobs).length) (h2 : i < jobs.length) :
    (summarizeFrom k jobs).get ⟨i, h1⟩ = summarize (k + i) (jobs.get ⟨i, h2⟩) := by
  induction jobs generalizing k i with
  | nil => exact absurd h2 (by simp)
  | cons j rest ih =>
    cases i with
    | zero => rfl
    | succ i' =>
      have := ih (k + 1) i' (by simpa [summarizeFrom] using h1) (by simpa using h2)
      simpa [summarizeFrom, Nat.add_assoc, Nat.add_comm 1 i'] using this

lemma mem_summarizeFrom (k : Nat) (jobs : List Job) (s : JobSummary)
    (hs : s ∈ summarizeFrom k jobs) : ∃ i j, j ∈ jobs ∧ s = summarize i j := by
  induction jobs generalizing k with
  | nil => simp [summarizeFrom] at hs
  | cons j rest ih =>
    rcases List.mem_cons.mp hs with h | h
    · exact ⟨k, j, List.mem_cons_self j rest, h⟩
    · obtain ⟨i, j', hj', hsj⟩ := ih (k + 1) h
      exact ⟨i, j', List.mem_cons_of_mem j hj', hsj⟩

/-! ### Claim theorems -/

/-- C1 (amended): a POST to `/api/jobs/{index}` or `/api/jobs/{index}/run`
answers 202 with body `{"status":"accepted"}` when the index string parses
as an integer in `[0, n)` (`n` = number of registered runnables, one per
job; every such string yields a canonical path); an unparseable, negative or
too-large index string answers 400 provided the path survives ServeMux path
cleaning unchanged — a non-canonical path (index segment `.` or `..`, or an
empty segment) is answered with a 301 redirect before any handler runs. -/
theorem api_trigger_index_range_validation (jobs : List Job) (n : Nat)
    (busy : Nat → Bool) (s : GoStr) (withRun : Bool) (hs : '/' ∉ s) :
    ((∃ i : Int, goAtoi s = some i ∧ 0 ≤ i ∧ i < (n : Int)) →
      (serveMux jobs n busy ⟨gs "POST", pathFor s withRun⟩).1 = acceptedResponse) ∧
    (cleanPath (pathFor s withRun) = pathFor s withRun →
      (goAtoi s = none ∨ ∃ i : Int, goAtoi s = some i ∧ (i < 0 ∨ (n : Int) ≤ i)) →
      (serveMux jobs n busy ⟨gs "POST", pathFor s withRun⟩).1 = badRequestResponse) ∧
    (cleanPath (pathFor s withRun) ≠ pathFor s withRun →
      (serveMux jobs n busy ⟨gs "POST", pathFor s withRun⟩).1 =
        redirectResponse (gs "POST") (cleanPath (pathFor s withRun))) := by
  have hpfx : gs "/api/jobs/" <+: pathFor s withRun := List.prefix_append _ _
  refine ⟨?_, ?_, ?_⟩
  · rintro ⟨i, hi, h0, hlt⟩
    have hne : s ≠ [] := by
      intro h
      rw [h, (by decide : goAtoi ([] : GoStr) = none)] at hi
      exact Option.noConfusion hi
    have hd1 : s ≠ gs "." := by
      intro h
      rw [h, (by decide : goAtoi (gs ".") = none)] at hi
      exact Option.noConfusion hi
    have hd2 : s ≠ gs ".." := by
      intro h
      rw [h, (by decide : goAtoi (gs "..") = none)] at hi
      exact Option.noConfusion hi
    rw [serveMux_trigger_decision jobs n busy (pathFor s withRun) s
      (pathFor_canonical s hs hne hd1 hd2 withRun) hpfx (pathFor_trim s withRun hs)]
    rw [hi]
    simp only [triggerDecision]
    rw [if_neg (by omega : ¬(i < 0 ∨ (n : Int) ≤ i))]
  · intro hcanon hbad
    rw [serveMux_trigger_decision jobs n busy (pathFor s withRun) s hcanon hpfx
      (pathFor_trim s withRun hs)]
    rcases hbad with hnone | ⟨i, hi, hout⟩
    · rw [hnone]
      rfl
    · rw [hi]
      simp only [triggerDecision]
      rw [if_pos hout]
  · intro hnc
    unfold serveMux
    dsimp only
    rw [if_pos ⟨(by decide : gs "POST" ≠ gs "CONNECT"), hnc⟩]

/-- C1 counterexample: the unamended claim calls `POST /api/jobs/..` (index
string `..`, unparseable) a 400, but the mux answers 301. -/
theorem api_trigger_index_range_validation_counterexample :
    '/' ∉ gs ".." ∧ goAtoi (gs "..") = none ∧
      (serveMux [] 3 (fun _ => false) ⟨gs "POST", pathFor (gs "..") false⟩).1 ≠
        badRequestResponse ∧
      (serveMux [] 3 (fun _ => false) ⟨gs "POST", pathFor (gs "..") false⟩).1.status =
        301 := by
  decide

/-- C1 witness: POST `/api/jobs/1/run` with 3 runnables answers 202. -/
theorem api_trigger_index_range_validation_witness :
    '/' ∉ gs "1" ∧
      (serveMux [] 3 (fun _ => false) ⟨gs "POST", pathFor (gs "1") true⟩).1 =
        acceptedResponse :=
  ⟨by decide,
   (api_trigger_index_range_validation [] 3 (fun _ => false) (gs "1") true
      (by decide)).1 ⟨1, by decide, by decide, by decide⟩⟩

/-- C2: the HTTP response of the API never depends on the per-job busy state:
two requests differing only in the RunState snapshot get identical responses
(the 202 of an accepted trigger does not reveal Accepted versus Busy). -/
theorem api_trigger_response_busy_independent (jobs : List Job) (n : Nat)
    (b₁ b₂ : Nat → Bool) (r : Request) :
    (serveMux jobs n b₁ r).1 = (serveMux jobs n b₂ r).1 := by
  unfold serveMux
  by_cases h0 : r.method ≠ gs "CONNECT" ∧ cleanPath r.path ≠ r.path
  · rw [if_pos h0, if_pos h0]
  · rw [if_neg h0, if_neg h0]
    unfold muxDispatch
    by_cases h1 : r.path = gs "/api/jobs"
    · rw [if_pos h1, if_pos h1]
    · rw [if_neg h1, if_neg h1]
      by_cases h2 : gs "/api/jobs/" <+: r.path
      · rw [if_pos h2, if_pos h2]
        exact jobsTriggerHandler_fst n b₁ b₂ r
      · rw [if_neg h2, if_neg h2]

/-- C3: GET `/api/jobs` answers 200 with Content-Type `application/json` and
the JSON array of summaries: one element per registered job, in registry
order, the `index` field of each element being its 0-based position. -/
theorem api_jobs_listing_order_and_indices (jobs : List Job) (n : Nat)
    (busy : Nat → Bool) :
    (serveMux jobs n busy ⟨gs "GET", gs "/api/jobs"⟩).1 =
      { status := 200, contentType := some (gs "application/json"),
        body := .jsonList (listSummaries jobs) } ∧
    (listSummaries jobs).length = jobs.length ∧
    (listSummaries jobs).map JobSummary.index = List.range jobs.length := by
  refine ⟨rfl, summarizeFrom_length 0 jobs, ?_⟩
  rw [List.range_eq_range']
  exact summarizeFrom_map_index 0 jobs

/-- C4: in the listing, each summary carries exactly one of `command`/`run`
(present = non-empty under `omitempty`), matching its `type` tag; this needs
the § 4.1 registry invariant that no job has both actions empty. -/
theorem api_jobs_summary_exactly_one_action_field (jobs : List Job)
    (hv : ∀ j ∈ jobs, j.run ≠ "" ∨ j.command ≠ "") :
    ∀ s ∈ listSummaries jobs,
      (s.type = "run" ∧ s.run ≠ "" ∧ s.command = "") ∨
      (s.type = "rclone" ∧ s.command ≠ "" ∧ s.run = "") := by
  intro s hs
  obtain ⟨i, j, hj, rfl⟩ := mem_summarizeFrom 0 jobs s hs
  unfold summarize
  by_cases hr : j.run ≠ ""
  · rw [if_pos hr]
    exact Or.inl ⟨rfl, hr, rfl⟩
  · rw [if_neg hr]
    push_neg at hr
    refine Or.inr ⟨rfl, ?_, rfl⟩
    rcases hv j hj with h | h
    · exact absurd hr h
    · exact h

/-- C4 witness: a registry with one rclone job and one shell job. -/
theorem api_jobs_summary_exactly_one_action_field_witness :
    ((summarize 0 ⟨"Nightly", "0 2 * * *", "sync remote: local:", ""⟩).type = "run" ∧
      (summarize 0 ⟨"Nightly", "0 2 * * *", "sync remote: local:", ""⟩).run ≠ "" ∧
      (summarize 0 ⟨"Nightly", "0 2 * * *", "sync remote: local:", ""⟩).command = "") ∨
    ((summarize 0 ⟨"Nightly", "0 2 * * *", "sync remote: local:", ""⟩).type = "rclone" ∧
      (summarize 0 ⟨"Nightly", "0 2 * * *", "sync remote: local:", ""⟩).command ≠ "" ∧
      (summarize 0 ⟨"Nightly", "0 2 * * *", "sync remote: local:", ""⟩).run = "") :=
  api_jobs_summary_exactly_one_action_field
    [⟨"Nightly", "0 2 * * *", "sync remote: local:", ""⟩]
    (by decide) _ (by decide)

/-- C5: in the listing, a job with an empty schedule is shown with the fixed
placeholder "(on demand / startup)", a job with a non-empty schedule with its
schedule verbatim. -/
theorem api_jobs_schedule_placeholder (jobs : List Job) (i : Nat)
    (h1 : i < (listSummaries jobs).length) (h2 : i < jobs.length) :
    ((jobs.get ⟨i, h2⟩).schedule = "" →
      ((listSummaries jobs).get ⟨i, h1⟩).schedule = "(on demand / startup)") ∧
    ((jobs.get ⟨i, h2⟩).schedule ≠ "" →
      ((listSummaries jobs).get ⟨i, h1⟩).schedule = (jobs.get ⟨i, h2⟩).schedule) := by
  have hget : (listSummaries jobs).get ⟨i, h1⟩ = summarize i (jobs.get ⟨i, h2⟩) := by
    have h := summarizeFrom_get 0 jobs i h1 h2
    simpa using h
  rw [hget, summarize_schedule]
  unfold displaySchedule
  constructor
  · intro h
    rw [if_pos h]
  · intro h
    rw [if_neg h]

/-- C5 witness: the spec's two-job example, "Cleanup" with no schedule gets
the placeholder and "Nightly" keeps "0 2 * * *". -/
theorem api_jobs_schedule_placeholder_witness :
    ((listSummaries [⟨"Nightly", "0 2 * * *", "sync remote: local:", ""⟩,
        ⟨"Cleanup", "", "", "find /tmp -delete"⟩]).get ⟨1, by decide⟩).schedule =
      "(on demand / startup)" ∧
    ((listSummaries [⟨"Nightly", "0 2 * * *", "sync remote: local:", ""⟩,
        ⟨"Cleanup", "", "", "find /tmp -delete"⟩]).get ⟨0, by decide⟩).schedule =
      "0 2 * * *" :=
  ⟨(api_jobs_schedule_placeholder
      [⟨"Nightly", "0 2 * * *", "sync remote: local:", ""⟩,
       ⟨"Cleanup", "", "", "find /tmp -delete"⟩] 1 (by decide) (by decide)).1 rfl,
   (api_jobs_schedule_placeholder
      [⟨"Nightly", "0 2 * * *", "sync remote: local:", ""⟩,
       ⟨"Cleanup", "", "", "find /tmp -delete"⟩] 0 (by decide) (by decide)).2
     (by decide)⟩

/-- C6 (amended): a disallowed method gets a bare 405 before any further
processing: any non-GET on `/api/jobs` (a canonical path), and any non-POST
on a canonical `/api/jobs/{index}` path — a non-canonical path is answered
with a 301 redirect by the mux before the method is ever checked. -/
theorem api_method_not_allowed (jobs : List Job) (n : Nat) (busy : Nat → Bool)
    (r : Request) :
    (r.path = gs "/api/jobs" → r.method ≠ gs "GET" →
      (serveMux jobs n busy r).1 = methodNotAllowedResponse) ∧
    (cleanPath r.path = r.path → gs "/api/jobs/" <+: r.path →
      r.method ≠ gs "POST" →
      (serveMux jobs n busy r).1 = methodNotAllowedResponse) := by
  constructor
  · intro hp hm
    rw [serveMux_of_canonical jobs n busy r (by rw [hp]; decide)]
    unfold muxDispatch
    rw [if_pos hp]
    unfold jobsListHandler
    rw [if_pos hm]
  · intro hc hp hm
    rw [serveMux_of_canonical jobs n busy r hc]
    rw [muxDispatch_trigger_route jobs n busy r.method r.path hp]
    unfold jobsTriggerHandler
    rw [if_pos hm]

/-- C6 counterexample: the unamended claim calls `GET /api/jobs/..`
(prefix `/api/jobs/`, method ≠ POST) a 405, but the mux answers 301. -/
theorem api_method_not_allowed_counterexample :
    (gs "/api/jobs/" <+: gs "/api/jobs/..") ∧
      (serveMux [] 1 (fun _ => false) ⟨gs "GET", gs "/api/jobs/.."⟩).1 ≠
        methodNotAllowedResponse ∧
      (serveMux [] 1 (fun _ => false) ⟨gs "GET", gs "/api/jobs/.."⟩).1.status =
        301 := by
  decide

/-- C6 witness: GET on `/api/jobs/0` (canonical) answers 405. -/
theorem api_method_not_allowed_witness :
    gs "/api/jobs/" <+: gs "/api/jobs/0" ∧
      (serveMux [] 1 (fun _ => false) ⟨gs "GET", gs "/api/jobs/0"⟩).1 =
        methodNotAllowedResponse :=
  ⟨by decide,
   (api_method_not_allowed [] 1 (fun _ => false)
      ⟨gs "GET", gs "/api/jobs/0"⟩).2 (by decide) (by decide) (by decide)⟩

/-- C7 (amended): GET `/` and GET `/jobs` answer 200 with Content-Type
`text/html; charset=utf-8` and the static dashboard page; any other
canonical path outside `/api/jobs` answers 404, while a non-canonical path
(doubled slash, `.` or `..` segment) is answered with a 301 redirect by the
mux before any handler runs. -/
theorem api_ui_routes_and_not_found (jobs : List Job) (n : Nat)
    (busy : Nat → Bool) (p : GoStr) :
    ((p = gs "/" ∨ p = gs "/jobs") →
      (serveMux jobs n busy ⟨gs "GET", p⟩).1 =
        { status := 200, contentType := some (gs "text/html; charset=utf-8"),
          body := .raw jobsPageHTML }) ∧
    ((cleanPath p = p ∧ p ≠ gs "/" ∧ p ≠ gs "/jobs" ∧ p ≠ gs "/api/jobs" ∧
        ¬(gs "/api/jobs/" <+: p)) →
      (serveMux jobs n busy ⟨gs "GET", p⟩).1 = notFoundResponse) ∧
    (cleanPath p ≠ p →
      (serveMux jobs n busy ⟨gs "GET", p⟩).1 =
        redirectResponse (gs "GET") (cleanPath p)) := by
  refine ⟨?_, ?_, ?_⟩
  · rintro (rfl | rfl) <;> rfl
  · rintro ⟨hc, h1, h2, h3, h4⟩
    rw [serveMux_of_canonical jobs n busy _ hc]
    unfold muxDispatch
    rw [if_neg h3, if_neg h4]
    unfold uiHandler
    rw [if_pos ⟨h1, h2⟩]
  · intro hnc
    unfold serveMux
    dsimp only
    rw [if_pos ⟨(by decide : gs "GET" ≠ gs "CONNECT"), hnc⟩]

/-- C7 counterexample: the unamended claim calls `GET //foo` (not `/`, not
`/jobs`, not under `/api/jobs`) a 404, but the mux answers 301. -/
theorem api_ui_routes_and_not_found_counterexample :
    (gs "//foo" ≠ gs "/" ∧ gs "//foo" ≠ gs "/jobs" ∧
      gs "//foo" ≠ gs "/api/jobs" ∧ ¬(gs "/api/jobs/" <+: gs "//foo")) ∧
      (serveMux [] 0 (fun _ => false) ⟨gs "GET", gs "//foo"⟩).1 ≠
        notFoundResponse ∧
      (serveMux [] 0 (fun _ => false) ⟨gs "GET", gs "//foo"⟩).1.status = 301 := by
  decide

/-- C7 witness: GET `/jobs` serves the page; GET `/nope` answers 404. -/
theorem api_ui_routes_and_not_found_witness :
    (gs "/jobs" = gs "/" ∨ gs "/jobs" = gs "/jobs") ∧
      (serveMux [] 0 (fun _ => false) ⟨gs "GET", gs "/jobs"⟩).1 =
        { status := 200, contentType := some (gs "text/html; charset=utf-8"),
          body := .raw jobsPageHTML } ∧
      (serveMux [] 0 (fun _ => false) ⟨gs "GET", gs "/nope"⟩).1 =
        notFoundResponse :=
  ⟨Or.inr rfl,
   (api_ui_routes_and_not_found [] 0 (fun _ => false) (gs "/jobs")).1 (Or.inr rfl),
   (api_ui_routes_and_not_found [] 0 (fun _ => false) (gs "/nope")).2.1
     ⟨by decide, by decide, by decide, by decide, by decide⟩⟩

/-- Every response of the handler dispatch (the part behind the mux's
canonicalization) has status 200, 202, 400, 404 or 405. -/
lemma muxDispatch_status_mem (jobs : List Job) (n : Nat) (busy : Nat → Bool)
    (r : Request) :
    (muxDispatch jobs n busy r).1.status ∈ ([200, 202, 400, 404, 405] : List Nat) := by
  unfold muxDispatch
  by_cases h1 : r.path = gs "/api/jobs"
  · rw [if_pos h1]
    unfold jobsListHandler
    by_cases hm : r.method ≠ gs "GET"
    · rw [if_pos hm]
      simp [methodNotAllowedResponse]
    · rw [if_neg hm]
      simp
  · rw [if_neg h1]
    by_cases h2 : gs "/api/jobs/" <+: r.path
    · rw [if_pos h2]
      unfold jobsTriggerHandler
      by_cases hm : r.method ≠ gs "POST"
      · rw [if_pos hm]
        simp [methodNotAllowedResponse]
      · rw [if_neg hm]
        rcases hA : goAtoi (trimSfx (gs "/run") (trimPfx (gs "/api/jobs/") r.path))
          with _ | i
        · simp [triggerDecision, badRequestResponse]
        · by_cases hr : i < 0 ∨ (n : Int) ≤ i
          · simp only [triggerDecision, if_pos hr]
            simp [badRequestResponse]
          · simp only [triggerDecision, if_neg hr]
            simp [acceptedResponse]
    · rw [if_neg h2]
      unfold uiHandler
      by_cases hp : r.path ≠ gs "/" ∧ r.path ≠ gs "/jobs"
      · rw [if_pos hp]
        simp [notFoundResponse]
      · rw [if_neg hp]
        simp

/-- C8 (amended): every response of the API has status 200, 202, 301, 400,
404 or 405, and on a canonical path (one ServeMux path cleaning leaves
unchanged — the only requests that reach a handler) the status is 200, 202,
400, 404 or 405; the extra 301 is the mux's redirect for non-canonical
paths. -/
theorem api_status_codes_closed_set (jobs : List Job) (n : Nat)
    (busy : Nat → Bool) (r : Request) :
    (serveMux jobs n busy r).1.status ∈ ([200, 202, 301, 400, 404, 405] : List Nat) ∧
    (cleanPath r.path = r.path →
      (serveMux jobs n busy r).1.status ∈ ([200, 202, 400, 404, 405] : List Nat)) := by
  constructor
  · by_cases h0 : r.method ≠ gs "CONNECT" ∧ cleanPath r.path ≠ r.path
    · unfold serveMux
      rw [if_pos h0]
      simp [redirectResponse]
    · unfold serveMux
      rw [if_neg h0]
      have h := muxDispatch_status_mem jobs n busy r
      simp only [List.mem_cons, List.not_mem_nil, or_false] at h ⊢
      tauto
  · intro hc
    rw [serveMux_of_canonical jobs n busy r hc]
    exact muxDispatch_status_mem jobs n busy r

/-- C8 counterexample: the unamended claim puts every status in
200/202/400/404/405, but `GET //` is answered 301 by the mux. -/
theorem api_status_codes_closed_set_counterexample :
    (serveMux [] 0 (fun _ => false) ⟨gs "GET", gs "//"⟩).1.status ∉
        ([200, 202, 400, 404, 405] : List Nat) ∧
      (serveMux [] 0 (fun _ => false) ⟨gs "GET", gs "//"⟩).1.status = 301 := by
  decide

/-- C8 witness: the canonical path `/` stays in the original status set. -/
theorem api_status_codes_closed_set_witness :
    cleanPath (gs "/") = gs "/" ∧
      (serveMux [] 0 (fun _ => false) ⟨gs "GET", gs "/"⟩).1.status ∈
        ([200, 202, 400, 404, 405] : List Nat) :=
  ⟨by decide,
   (api_status_codes_closed_set [] 0 (fun _ => false)
      ⟨gs "GET", gs "/"⟩).2 (by decide)⟩

/-- C9: the UI route never checks the method: any method on `/` or `/jobs`
gets the 200 HTML page, never a 405. -/
theorem api_ui_route_ignores_method (jobs : List Job) (n : Nat)
    (busy : Nat → Bool) (m p : GoStr) (hp : p = gs "/" ∨ p = gs "/jobs") :
    (serveMux jobs n busy ⟨m, p⟩).1 =
      { status := 200, contentType := some (gs "text/html; charset=utf-8"),
        body := .raw jobsPageHTML } := by
  rcases hp with rfl | rfl
  · have hc : cleanPath (gs "/") = gs "/" := by decide
    rw [serveMux_of_canonical jobs n busy ⟨m, gs "/"⟩ hc]
    rfl
  · have hc : cleanPath (gs "/jobs") = gs "/jobs" := by decide
    rw [serveMux_of_canonical jobs n busy ⟨m, gs "/jobs"⟩ hc]
    rfl

/-- C9 witness: DELETE `/` still serves the page. -/
theorem api_ui_route_ignores_method_witness :
    (gs "/" = gs "/" ∨ gs "/" = gs "/jobs") ∧
      (serveMux [] 0 (fun _ => false) ⟨gs "DELETE", gs "/"⟩).1 =
        { status := 200, contentType := some (gs "text/html; charset=utf-8"),
          body := .raw jobsPageHTML } :=
  ⟨Or.inl rfl,
   api_ui_route_ignores_method [] 0 (fun _ => false) (gs "DELETE") (gs "/")
     (Or.inl rfl)⟩

/-- C10: the index parsing is exactly Atoi after stripping one trailing
`/run`: `+1` and `007` are valid in-range indices and trigger jobs 1 and 7,
while a doubled `/run/run` suffix or a trailing slash yields 400. -/
theorem api_trigger_atoi_lenient_parsing (jobs : List Job) (busy : Nat → Bool)
    (n : Nat) (hn : 8 ≤ n) :
    goAtoi (gs "+1") = some 1 ∧
    goAtoi (gs "007") = some 7 ∧
    serveMux jobs n busy ⟨gs "POST", gs "/api/jobs/+1"⟩ =
      (acceptedResponse,
       some (1, if busy 1 then TriggerResult.Busy else TriggerResult.Accepted)) ∧
    serveMux jobs n busy ⟨gs "POST", gs "/api/jobs/007/run"⟩ =
      (acceptedResponse,
       some (7, if busy 7 then TriggerResult.Busy else TriggerResult.Accepted)) ∧
    (serveMux jobs n busy ⟨gs "POST", gs "/api/jobs/1/run/run"⟩).1 =
      badRequestResponse ∧
    (serveMux jobs n busy ⟨gs "POST", gs "/api/jobs/1/"⟩).1 = badRequestResponse := by
  refine ⟨by decide, by decide, ?_, ?_, ?_, ?_⟩
  · rw [serveMux_trigger_decision jobs n busy _ (gs "+1") (by decide) (by decide) (by decide)]
    rw [show goAtoi (gs "+1") = some 1 from by decide]
    simp only [triggerDecision]
    rw [if_neg (by omega : ¬((1 : Int) < 0 ∨ (n : Int) ≤ 1))]
    rfl
  · rw [serveMux_trigger_decision jobs n busy _ (gs "007") (by decide) (by decide) (by decide)]
    rw [show goAtoi (gs "007") = some 7 from by decide]
    simp only [triggerDecision]
    rw [if_neg (by omega : ¬((7 : Int) < 0 ∨ (n : Int) ≤ 7))]
    rfl
  · rw [serveMux_trigger_decision jobs n busy _ (gs "1/run") (by decide) (by decide) (by decide)]
    rw [show goAtoi (gs "1/run") = none from by decide]
    rfl
  · rw [serveMux_trigger_decision jobs n busy _ (gs "1/") (by decide) (by decide) (by decide)]
    rw [show goAtoi (gs "1/") = none from by decide]
    rfl

/-- C10 witness: with 8 runnables, POST `/api/jobs/1/run/run` answers 400. -/
theorem api_trigger_atoi_lenient_parsing_witness :
    8 ≤ 8 ∧
      (serveMux [] 8 (fun _ => false) ⟨gs "POST", gs "/api/jobs/1/run/run"⟩).1 =
        badRequestResponse :=
  ⟨by decide,
   (api_trigger_atoi_lenient_parsing [] (fun _ => false) 8 (by decide)).2.2.2.2.1⟩
